import Mathlib

/-!
Shallow embedding of the pagegraph-rust query and causal-trace layer
(`src/graph.rs` and `src/graph_algos.rs`).

Rust `HashMap<Id, V>` stores become association lists; the petgraph
`DiGraphMap<NodeId, EdgeId>` adjacency index becomes a list of
`(source, target, edge id)` triples (the map structure guarantees at most
one edge per ordered pair of endpoints; where a result depends on that we
take it as an explicit hypothesis).  Rust panics (`unwrap`, `expect`,
`panic!`, `assert_eq!`, `unimplemented!`) become `Except.error`; the
`while` loop of `all_downstream_effects_of` is given explicit fuel, with
`none` meaning the loop is still running after that many iterations.
-/

namespace PG

/-- Model of a parsed `url::Url`: the algorithms only consult the scheme
and the optional host string. -/
structure ParsedUrl where
  scheme : String
  host : Option String
deriving DecidableEq

/-- Model of `adblock::request::Request::new`: the seven arguments the code
builds the request from, in order. -/
structure AdblockRequest where
  request_type : String
  url : String
  scheme : String
  host : String
  domain : String
  source_hostname : String
  source_domain : String
deriving DecidableEq

/-- The external collaborators consumed by `resources_matching_filter` and
`get_domain`: the adblock network-filter engine (parse may fail softly;
matching is total on parsed rules), `url::Url::parse` (may fail), and the
`addr` crate's registrable-domain root (`host.parse::<DomainName>()`
composed with `.root().to_str()`, which may fail). -/
structure Extern (Rule : Type) where
  parseFilter : String → Option Rule
  matchesRule : Rule → AdblockRequest → Bool
  parseUrl : String → Option ParsedUrl
  domainRoot : String → Option String

/-- Node kinds, as pattern-matched in `graph_algos.rs` (the full taxonomy
lives in `types.rs`; only the payload fields the algorithms inspect are
kept, with their source field names). -/
inductive NodeType
  | Extensions
  | RemoteFrame (frame_id : String)
  | Resource (url : String)
  | AdFilter (rule : String)
  | TrackerFilter
  | FingerprintingFilter
  | WebApi (method : String)
  | JsBuiltin (method : String)
  | HtmlElement (tag_name : String) (node_id : Nat)
  | TextNode (text : String)
  | DomRoot (url : Option String)
  | FrameOwner (tag_name : String)
  | Storage
  | LocalStorage
  | SessionStorage
  | CookieJar
  | Script (source : String)
  | Parser
  | BraveShields
  | AdsShield
  | TrackersShield
  | JavascriptShield
  | FingerprintingShield
deriving DecidableEq

/-- Edge kinds, as pattern-matched in `graph_algos.rs`: structural edges,
request-start edges (carrying a request type), request-complete edges, and
every other action kind (matched only by catch-all arms). -/
inductive EdgeType
  | Structure
  | RequestStart (request_type : String)
  | RequestComplete
  | OtherAction (kind : String)
deriving DecidableEq

/-- An identifier used to reference a node (`NodeId(usize)`). -/
abbrev NodeId := Nat

/-- An identifier used to reference an edge (`EdgeId(usize)`). -/
abbrev EdgeId := Nat

/-- A node, representing a side effect of a page load. -/
structure Node where
  node_timestamp : Int
  node_type : NodeType
deriving DecidableEq

/-- An edge, representing an action taken during page load. -/
structure Edge where
  edge_timestamp : Option Int
  edge_type : EdgeType
deriving DecidableEq

/-- The main PageGraph data structure: the two id-keyed stores and the
directed adjacency index (triples `(source, target, edge id)`). -/
structure PageGraph where
  edges : List (EdgeId × Edge)
  nodes : List (NodeId × Node)
  adj : List (NodeId × NodeId × EdgeId)

/-- `self.nodes.get(&id)`. -/
def PageGraph.getNode (g : PageGraph) (id : NodeId) : Option Node :=
  (g.nodes.find? (fun p => p.1 == id)).map Prod.snd

/-- `self.edges.get(&id)`. -/
def PageGraph.getEdge (g : PageGraph) (id : EdgeId) : Option Edge :=
  (g.edges.find? (fun p => p.1 == id)).map Prod.snd

/-- `self.graph.edges_directed(n, Direction::Outgoing)`: all adjacency
triples whose source is `n`. -/
def PageGraph.edgesOut (g : PageGraph) (n : NodeId) : List (NodeId × NodeId × EdgeId) :=
  g.adj.filter (fun t => t.1 == n)

/-- `self.graph.edges_directed(n, Direction::Incoming)`: all adjacency
triples whose target is `n`. -/
def PageGraph.edgesIn (g : PageGraph) (n : NodeId) : List (NodeId × NodeId × EdgeId) :=
  g.adj.filter (fun t => t.2.1 == n)

/-- `self.graph.neighbors_directed(n, Direction::Outgoing)`. -/
def PageGraph.neighborsOut (g : PageGraph) (n : NodeId) : List NodeId :=
  (g.edgesOut n).map (fun t => t.2.1)

/-- `self.graph.neighbors_directed(n, Direction::Incoming)`. -/
def PageGraph.neighborsIn (g : PageGraph) (n : NodeId) : List NodeId :=
  (g.edgesIn n).map (fun t => t.1)

/-- `self.graph.edge_weight(a, b)`: the edge id on the ordered pair
`(a, b)`, if any. -/
def PageGraph.edgeWeight (g : PageGraph) (a b : NodeId) : Option EdgeId :=
  (g.adj.find? (fun t => t.1 == a && t.2.1 == b)).map (fun t => t.2.2)

/-- Rust `Option::unwrap` / `Option::expect`: a missing value is a panic. -/
def expectSome {α : Type} (o : Option α) (msg : String) : Except String α :=
  match o with
  | some a => Except.ok a
  | none => Except.error msg

/-- Effectful `map` over a list in the `Except` monad (models a Rust
iterator `map` whose closure can panic, run to completion by `collect`). -/
def emap {α β : Type} (f : α → Except String β) : List α → Except String (List β)
  | [] => Except.ok []
  | x :: xs => do
    let y ← f x
    let ys ← emap f xs
    pure (y :: ys)

/-- Effectful `filter` in the `Except` monad. -/
def efilter {α : Type} (p : α → Except String Bool) : List α → Except String (List α)
  | [] => Except.ok []
  | x :: xs => do
    let b ← p x
    let ys ← efilter p xs
    pure (if b then x :: ys else ys)

/-- Effectful `filter_map` in the `Except` monad. -/
def efilterMap {α β : Type} (f : α → Except String (Option β)) :
    List α → Except String (List β)
  | [] => Except.ok []
  | x :: xs => do
    let o ← f x
    let ys ← efilterMap f xs
    pure (match o with | some y => y :: ys | none => ys)

@[simp] theorem ebind_ok {α β : Type} (a : α) (f : α → Except String β) :
    (Except.ok a >>= f : Except String β) = f a := rfl

@[simp] theorem expectSome_some {α : Type} (a : α) (msg : String) :
    expectSome (some a) msg = Except.ok a := rfl

@[simp] theorem epure_ok {α : Type} (a : α) :
    (pure a : Except String α) = Except.ok a := rfl

@[simp] theorem expectSome_none {α : Type} (msg : String) :
    expectSome (none : Option α) msg = Except.error msg := rfl

@[simp] theorem ebind_error {α β : Type} (e : String) (f : α → Except String β) :
    (Except.error e >>= f : Except String β) = Except.error e := rfl

end PG

namespace PG

/-- Key order for the decorated sort in `all_html_element_modifications`:
compare the extracted timestamps. -/
def tsLe (a b : Int × (EdgeId × Edge)) : Prop := a.1 ≤ b.1

instance : DecidableRel tsLe := fun a b => Int.decLe a.1 b.1

instance : IsTotal (Int × (EdgeId × Edge)) tsLe := ⟨fun a b => Int.le_total a.1 b.1⟩

instance : IsTrans (Int × (EdgeId × Edge)) tsLe := ⟨fun _ _ _ h1 h2 => le_trans h1 h2⟩

/-- `cause_of` from `graph_algos.rs`: matches on the node kind and returns
`None` in every arm. -/
def PageGraph.cause_of (_g : PageGraph) (node_ref : NodeId × Node) : Option (NodeId × Node) :=
  match node_ref.2.node_type with
  | NodeType.TextNode _ => none
  | NodeType.HtmlElement _ _ => none
  | _ => none

/-- Rust `Vec::sort_by_key` with the panicking key
`edge.edge_timestamp.expect(..)`: for fewer than two elements the sort
never invokes the key closure (so a missing timestamp goes unnoticed);
otherwise every key is extracted, and a missing timestamp is a panic.  The
sort itself is stable, so a stable insertion sort on the decorated list
computes the same list as the Rust sort. -/
def sortModifications (mods : List (EdgeId × Edge)) : Except String (List (EdgeId × Edge)) :=
  if mods.length ≤ 1 then Except.ok mods
  else do
    let keyed ← emap (fun p => do
      let t ← expectSome p.2.edge_timestamp ("HTML element modification had no timestamp")
      pure (t, p)) mods
    pure ((List.insertionSort tsLe keyed).map Prod.snd)

/-- Returns a sorted Vec including 1 edge representing every time the given
HtmlElement node was modified in the page
(`all_html_element_modifications`). -/
def PageGraph.all_html_element_modifications (g : PageGraph) (node_id : NodeId) :
    Except String (List (EdgeId × Edge)) := do
  let element ← expectSome (g.getNode node_id) ("node not found")
  match element.node_type with
  | NodeType.HtmlElement _ _ => do
    let incident ← emap (fun node => do
        let edge_id ← expectSome (g.edgeWeight node node_id) ("edge weight not found")
        let edge ← expectSome (g.getEdge edge_id) ("edge not found")
        pure (edge_id, edge)) (g.neighborsIn node_id)
    let modifications := incident.filter (fun p =>
        match p.2.edge_type with
        | EdgeType.Structure => false
        | _ => true)
    sortModifications modifications
  | _ => Except.error ("Supply a node with HtmlElement node type")

/-- Get a collection of all Resource nodes whose requests were initiated by
a given Script node or HtmlElement node with tag_name "script"
(`resources_from_script`). -/
def PageGraph.resources_from_script (g : PageGraph) (node_id : NodeId) :
    Except String (List (NodeId × Node)) := do
  let element ← expectSome (g.getNode node_id) ("node not found")
  let direct_resources ← efilter (fun neighbor_id => do
      let n ← expectSome (g.getNode neighbor_id) ("neighbor not found")
      pure (match n.node_type with
        | NodeType.Resource _ => true
        | _ => false)) (g.neighborsOut node_id)
  let resulting_resources ← (do
    match element.node_type with
    | NodeType.Script _ => pure direct_resources
    | NodeType.HtmlElement tag_name _ =>
      if tag_name == "script" then do
        let resources_from_executed_script ← efilterMap (fun neighbor_id => do
            let n ← expectSome (g.getNode neighbor_id) ("neighbor not found")
            match n.node_type with
            | NodeType.Script _ => do
              let rs ← efilter (fun attached_script_neighbor_id => do
                  let n2 ← expectSome (g.getNode attached_script_neighbor_id)
                    ("neighbor not found")
                  pure (match n2.node_type with
                    | NodeType.Resource _ => true
                    | _ => false)) (g.neighborsOut neighbor_id)
              pure (some rs)
            | _ => pure none) (g.neighborsOut node_id)
        pure (direct_resources ++ resources_from_executed_script.flatten)
      else
        Except.error ("Supply a node with Script node type, or an HtmlElement node")
    | _ => Except.error ("Supply a node with Script node type, or an HtmlElement node"))
  emap (fun nid => do
      let n ← expectSome (g.getNode nid) ("resource not found")
      pure (nid, n)) resulting_resources

/-- One step of the `root_url` scan: the fused filter (DOM root with no
incoming edges) and map (extract the URL, panicking when it is absent). -/
def dom_root_step (g : PageGraph) (p : NodeId × Node) : Except String (Option String) :=
  match p.2.node_type with
  | NodeType.DomRoot url =>
    if (g.edgesIn p.1).length == 0 then
      match url with
      | some u => Except.ok (some u)
      | none => Except.error ("Could not find DOM root URL")
    else Except.ok none
  | _ => Except.ok none

/-- Gets the URL of the page the graph was recorded from (`root_url`); the
final `assert_eq!(root_urls.len(), 1)` is the match on a singleton list. -/
def PageGraph.root_url (g : PageGraph) : Except String String := do
  let root_urls ← efilterMap (dom_root_step g) g.nodes
  match root_urls with
  | [u] => Except.ok u
  | _ => Except.error ("assertion failed: root_urls.len() == 1")

/-- `get_domain`: parse the host with the external domain grammar and keep
the right-hand substring of the host whose length is the length of the
registrable-domain root. -/
def get_domain {Rule : Type} (ext : Extern Rule) (host : String) : Except String String :=
  match ext.domainRoot host with
  | none => Except.error ("Source URL domain could not be parsed")
  | some root => Except.ok (host.drop (host.length - root.length))

/-- The per-node closure of `resources_matching_filter`: for a Resource
node, parse its URL (soft miss on failure), extract scheme/host/domain,
collect the distinct request types on incoming RequestStart edges (zero or
more than one is a panic), build the match request and keep the node iff
the rule matches. -/
def resource_check {Rule : Type} (ext : Extern Rule) (g : PageGraph) (rule : Rule)
    (source_hostname source_domain : String) (p : NodeId × Node) :
    Except String (Option (NodeId × Node)) :=
  match p.2.node_type with
  | NodeType.Resource url =>
    match ext.parseUrl url with
    | none => Except.ok none
    | some request_url => do
      let request_url_scheme := request_url.scheme
      let request_url_hostname ← expectSome request_url.host ("Request URL has no host")
      let request_url_domain ← get_domain ext request_url_hostname
      let request_types ← efilterMap (fun t => do
          let e ← expectSome (g.getEdge t.2.2) ("edge not found")
          pure (match e.edge_type with
            | EdgeType.RequestStart request_type => some request_type
            | _ => none)) (g.edgesIn p.1)
      let unique_request_types := request_types.dedup
      match unique_request_types with
      | [] => Except.error ("Resource did not have a corresponding RequestStart edge")
      | [request_type] =>
        let request : AdblockRequest :=
          { request_type := request_type, url := url, scheme := request_url_scheme,
            host := request_url_hostname, domain := request_url_domain,
            source_hostname := source_hostname, source_domain := source_domain }
        Except.ok (if ext.matchesRule rule request then some p else none)
      | _ =>
        Except.error ("Resource was requested with multiple different request types")
  | _ => Except.ok none

/-- Get a collection of all Resource nodes whose requests match a given
adblock filter pattern (`resources_matching_filter`).  The source-URL
pre-processing runs before the pattern parse, exactly as in the source. -/
def PageGraph.resources_matching_filter {Rule : Type} (ext : Extern Rule) (g : PageGraph)
    (pattern : String) : Except String (List (NodeId × Node)) := do
  let source_url_str ← g.root_url
  let source_url ← expectSome (ext.parseUrl source_url_str) ("Could not parse source URL")
  let source_hostname ← expectSome source_url.host ("Source URL has no host")
  let source_domain ← get_domain ext source_hostname
  match ext.parseFilter pattern with
  | some rule => efilterMap (resource_check ext g rule source_hostname source_domain) g.nodes
  | none => Except.ok []

/-- `direct_downstream_effects_of`: the kind-keyed dispatch table;
`unimplemented!()` arms are errors. -/
def PageGraph.direct_downstream_effects_of (g : PageGraph) (node_id : NodeId) :
    Except String (List (NodeId × Node)) := do
  let node ← expectSome (g.getNode node_id) ("node not found")
  match node.node_type with
  | NodeType.Extensions => Except.error ("not implemented")
  | NodeType.RemoteFrame _ => Except.error ("not implemented")
  | NodeType.Resource _ => do
    let attached_script_elements ← efilterMap (fun t => do
        let e ← expectSome (g.getEdge t.2.2) ("edge not found")
        match e.edge_type with
        | EdgeType.RequestComplete => do
          let target ← expectSome (g.getNode t.2.1) ("target not found")
          pure (match target.node_type with
            | NodeType.HtmlElement tag_name _ =>
              if tag_name == "script" then some t.2.1 else none
            | _ => none)
        | _ => pure none) (g.edgesOut node_id)
    let per_element ← emap (fun html_node_id =>
        efilterMap (fun html_neighbor => do
            let n ← expectSome (g.getNode html_neighbor) ("neighbor not found")
            pure (match n.node_type with
              | NodeType.Script _ => some (html_neighbor, n)
              | _ => none)) (g.neighborsOut html_node_id)) attached_script_elements
    pure per_element.flatten
  | NodeType.AdFilter _ => Except.error ("not implemented")
  | NodeType.TrackerFilter => Except.error ("not implemented")
  | NodeType.FingerprintingFilter => Except.error ("not implemented")
  | NodeType.WebApi _ => Except.error ("not implemented")
  | NodeType.JsBuiltin _ => Except.error ("not implemented")
  | NodeType.HtmlElement tag_name _ =>
    if tag_name == "script" then do
      let resource_requests ← efilterMap (fun nb => do
          let n ← expectSome (g.getNode nb) ("neighbor not found")
          pure (match n.node_type with
            | NodeType.Resource _ => some (nb, n)
            | _ => none)) (g.neighborsOut node_id)
      if resource_requests.isEmpty then
        efilterMap (fun nb => do
            let n ← expectSome (g.getNode nb) ("neighbor not found")
            pure (match n.node_type with
              | NodeType.Script _ => some (nb, n)
              | _ => none)) (g.neighborsOut node_id)
      else pure resource_requests
    else Except.error ("not implemented")
  | NodeType.TextNode _ => Except.error ("not implemented")
  | NodeType.DomRoot _ => Except.error ("not implemented")
  | NodeType.FrameOwner _ => Except.error ("not implemented")
  | NodeType.Storage => Except.error ("not implemented")
  | NodeType.LocalStorage => Except.error ("not implemented")
  | NodeType.SessionStorage => Except.error ("not implemented")
  | NodeType.CookieJar => Except.error ("not implemented")
  | NodeType.Script _ => do
    let fetched_resources ← efilterMap (fun t => do
        let e ← expectSome (g.getEdge t.2.2) ("edge not found")
        match e.edge_type with
        | EdgeType.RequestComplete => do
          let n ← expectSome (g.getNode t.1) ("source not found")
          pure (some (t.1, n))
        | _ => pure none) (g.edgesIn node_id)
    let executed_scripts ← efilterMap (fun nb => do
        let n ← expectSome (g.getNode nb) ("neighbor not found")
        pure (match n.node_type with
          | NodeType.Script _ => some (nb, n)
          | _ => none)) (g.neighborsOut node_id)
    pure (fetched_resources ++ executed_scripts)
  | NodeType.Parser => Except.error ("not implemented")
  | NodeType.BraveShields => Except.error ("not implemented")
  | NodeType.AdsShield => Except.error ("not implemented")
  | NodeType.TrackersShield => Except.error ("not implemented")
  | NodeType.JavascriptShield => Except.error ("not implemented")
  | NodeType.FingerprintingShield => Except.error ("not implemented")

/-- The `while let Some(node_id) = nodes_to_check.pop()` loop of
`all_downstream_effects_of`, with explicit fuel (`none` = the loop has not
finished after `fuel` iterations).  The worklist is a stack (Rust
`Vec::push` / `Vec::pop`), so pushing is consing.  Note the loop body
pushes `node_id` — the node just processed — for every direct effect not
yet in `already_checked`, exactly as the source does. -/
def PageGraph.allDownstreamLoop (g : PageGraph) :
    Nat → List NodeId → List NodeId → Option (Except String (List NodeId))
  | 0, _, _ => none
  | fuel + 1, nodes_to_check, already_checked =>
    match nodes_to_check with
    | [] => some (Except.ok already_checked)
    | node_id :: rest =>
      match g.direct_downstream_effects_of node_id with
      | Except.error e => some (Except.error e)
      | Except.ok direct_effects =>
        let already_checked' := already_checked ++ [node_id]
        let nodes_to_check' := direct_effects.foldl
          (fun acc p => if p.1 ∈ already_checked' then acc else node_id :: acc) rest
        g.allDownstreamLoop fuel nodes_to_check' already_checked'

/-- `all_downstream_effects_of`: run the worklist loop from the initial
node, then pair every checked id with its node. -/
def PageGraph.all_downstream_effects_of (g : PageGraph) (fuel : Nat) (init_node_id : NodeId) :
    Option (Except String (List (NodeId × Node))) :=
  match g.allDownstreamLoop fuel [init_node_id] [] with
  | none => none
  | some (Except.error e) => some (Except.error e)
  | some (Except.ok already_checked) =>
    some (emap (fun nid => do
      let n ← expectSome (g.getNode nid) ("checked node not found")
      pure (nid, n)) already_checked)

end PG

namespace PG

/-- Does a node kind have a `direct_downstream_effects_of` dispatch arm
that is implemented (resource, script, or a "script" HTML element)? -/
def supports_causal_tracing : NodeType → Bool
  | NodeType.Resource _ => true
  | NodeType.Script _ => true
  | NodeType.HtmlElement tag_name _ => tag_name == "script"
  | _ => false

/-- Is a node of resource kind? -/
def isResourceB : NodeType → Bool
  | NodeType.Resource _ => true
  | _ => false

/-- Is a node of script kind? -/
def isScriptB : NodeType → Bool
  | NodeType.Script _ => true
  | _ => false

/-- Is a node the DOM root? -/
def isDomRootB : NodeType → Bool
  | NodeType.DomRoot _ => true
  | _ => false

/-- Is an edge structural? -/
def isStructureB : EdgeType → Bool
  | EdgeType.Structure => true
  | _ => false

/-- The URL payload of a DOM-root node. -/
def dom_root_url : NodeType → Option String
  | NodeType.DomRoot url => url
  | _ => none

/-- Spec-side view: the outgoing one-hop neighbors of `n` whose node kind
satisfies `p`, paired with their nodes (neighbors missing from the node
store are skipped). -/
def PageGraph.outgoing_of_kind (g : PageGraph) (n : NodeId) (p : NodeType → Bool) :
    List (NodeId × Node) :=
  (g.neighborsOut n).filterMap (fun nb =>
    match g.getNode nb with
    | some node => if p node.node_type then some (nb, node) else none
    | none => none)

/-- Spec-side view: the incoming non-structural edges of `n`, read straight
off the adjacency index, paired with their edge records. -/
def PageGraph.incoming_modification_edges (g : PageGraph) (n : NodeId) :
    List (EdgeId × Edge) :=
  (g.edgesIn n).filterMap (fun t =>
    match g.getEdge t.2.2 with
    | some e => if isStructureB e.edge_type then none else some (t.2.2, e)
    | none => none)

/-- Spec-side view: the DOM-root nodes with zero incoming edges. -/
def PageGraph.dom_roots_without_incoming (g : PageGraph) : List (NodeId × Node) :=
  g.nodes.filter (fun p => isDomRootB p.2.node_type && (g.edgesIn p.1).length == 0)

/-- Spec-side view: the request types carried by the incoming RequestStart
edges of node `id` (in adjacency order, with repetitions). -/
def PageGraph.request_types_of (g : PageGraph) (id : NodeId) : List String :=
  (g.edgesIn id).filterMap (fun t =>
    (g.getEdge t.2.2).bind (fun e =>
      match e.edge_type with
      | EdgeType.RequestStart request_type => some request_type
      | _ => none))

/-- The timestamp key used to state sortedness of a modification list. -/
def tsKey (p : EdgeId × Edge) : Int := p.2.edge_timestamp.getD 0

end PG

namespace PG

theorem emap_eq_ok {α β : Type} (f : α → Except String β) (gp : α → β) :
    ∀ l : List α, (∀ x ∈ l, f x = Except.ok (gp x)) → emap f l = Except.ok (l.map gp) := by
  intro l
  induction l with
  | nil => intro _; rfl
  | cons x xs ih =>
    intro h
    have hx := h x (List.mem_cons_self x xs)
    have hxs := ih (fun y hy => h y (List.mem_cons_of_mem x hy))
    simp [emap, hx, hxs, List.map_cons]

theorem efilter_eq_ok {α : Type} (p : α → Except String Bool) (q : α → Bool) :
    ∀ l : List α, (∀ x ∈ l, p x = Except.ok (q x)) → efilter p l = Except.ok (l.filter q) := by
  intro l
  induction l with
  | nil => intro _; rfl
  | cons x xs ih =>
    intro h
    have hx := h x (List.mem_cons_self x xs)
    have hxs := ih (fun y hy => h y (List.mem_cons_of_mem x hy))
    simp [efilter, hx, hxs, List.filter_cons]

theorem efilterMap_eq_ok {α β : Type} (f : α → Except String (Option β)) (gp : α → Option β) :
    ∀ l : List α, (∀ x ∈ l, f x = Except.ok (gp x)) →
      efilterMap f l = Except.ok (l.filterMap gp) := by
  intro l
  induction l with
  | nil => intro _; rfl
  | cons x xs ih =>
    intro h
    have hx := h x (List.mem_cons_self x xs)
    have hxs := ih (fun y hy => h y (List.mem_cons_of_mem x hy))
    simp [efilterMap, hx, hxs, List.filterMap_cons]
    cases gp x <;> rfl

theorem emap_ok_forall {α β : Type} (f : α → Except String β) :
    ∀ (l : List α) (out : List β), emap f l = Except.ok out →
      ∀ x ∈ l, ∃ y, f x = Except.ok y ∧ y ∈ out := by
  intro l
  induction l with
  | nil => intro out _ x hx; cases hx
  | cons a as ih =>
    intro out hout x hx
    cases hfa : f a with
    | error e => rw [emap, hfa] at hout; cases hout
    | ok y =>
      cases hrest : emap f as with
      | error e => rw [emap, hfa, hrest] at hout; cases hout
      | ok ys =>
        rw [emap, hfa, hrest] at hout
        cases hout
        rcases List.mem_cons.mp hx with h | h
        · exact ⟨y, by rw [h]; exact hfa, List.mem_cons_self _ _⟩
        · rcases ih ys hrest x h with ⟨y', hy', hmem⟩
          exact ⟨y', hy', List.mem_cons_of_mem _ hmem⟩

theorem efilter_ok_mem {α : Type} (p : α → Except String Bool) :
    ∀ (l : List α) (out : List α), efilter p l = Except.ok out →
      ∀ x ∈ l, p x = Except.ok true → x ∈ out := by
  intro l
  induction l with
  | nil => intro out _ x hx; cases hx
  | cons a as ih =>
    intro out hout x hx hpx
    cases hfa : p a with
    | error e => rw [efilter, hfa] at hout; cases hout
    | ok b =>
      cases hrest : efilter p as with
      | error e => rw [efilter, hfa, hrest] at hout; cases hout
      | ok ys =>
        rw [efilter, hfa, hrest] at hout
        simp at hout
        rcases List.mem_cons.mp hx with h | h
        · subst h
          rw [hpx] at hfa
          cases hfa
          rw [← hout]
          simp
        · have hmem := ih ys hrest x h hpx
          rw [← hout]
          cases b <;> simp [hmem]

theorem efilter_ok_sound {α : Type} (p : α → Except String Bool) :
    ∀ (l : List α) (out : List α), efilter p l = Except.ok out →
      ∀ x ∈ out, x ∈ l ∧ p x = Except.ok true := by
  intro l
  induction l with
  | nil =>
    intro out hout x hx
    cases hout
    cases hx
  | cons a as ih =>
    intro out hout x hx
    cases hfa : p a with
    | error e => rw [efilter, hfa] at hout; cases hout
    | ok b =>
      cases hrest : efilter p as with
      | error e => rw [efilter, hfa, hrest] at hout; cases hout
      | ok ys =>
        rw [efilter, hfa, hrest] at hout
        simp at hout
        cases b with
        | true =>
          rw [← hout] at hx
          rcases List.mem_cons.mp hx with h | h
          · subst h; exact ⟨List.mem_cons_self _ _, hfa⟩
          · rcases ih ys hrest x h with ⟨h1, h2⟩
            exact ⟨List.mem_cons_of_mem _ h1, h2⟩
        | false =>
          rw [← hout] at hx
          rcases ih ys hrest x hx with ⟨h1, h2⟩
          exact ⟨List.mem_cons_of_mem _ h1, h2⟩

theorem efilterMap_ok_forall {α β : Type} (f : α → Except String (Option β)) :
    ∀ (l : List α) (out : List β), efilterMap f l = Except.ok out →
      ∀ x ∈ l, ∃ o, f x = Except.ok o ∧ ∀ y, o = some y → y ∈ out := by
  intro l
  induction l with
  | nil => intro out _ x hx; cases hx
  | cons a as ih =>
    intro out hout x hx
    cases hfa : f a with
    | error e => rw [efilterMap, hfa] at hout; cases hout
    | ok o =>
      cases hrest : efilterMap f as with
      | error e => rw [efilterMap, hfa, hrest] at hout; cases hout
      | ok ys =>
        rw [efilterMap, hfa, hrest] at hout
        simp at hout
        rcases List.mem_cons.mp hx with h | h
        · subst h
          refine ⟨o, hfa, ?_⟩
          intro y hy
          subst hy
          rw [← hout]
          simp
        · rcases ih ys hrest x h with ⟨o', ho', hmem⟩
          refine ⟨o', ho', ?_⟩
          intro y hy
          have := hmem y hy
          rw [← hout]
          cases o <;> simp [this]

theorem efilterMap_ok_sound {α β : Type} (f : α → Except String (Option β)) :
    ∀ (l : List α) (out : List β), efilterMap f l = Except.ok out →
      ∀ y ∈ out, ∃ x ∈ l, f x = Except.ok (some y) := by
  intro l
  induction l with
  | nil =>
    intro out hout y hy
    cases hout
    cases hy
  | cons a as ih =>
    intro out hout y hy
    cases hfa : f a with
    | error e => rw [efilterMap, hfa] at hout; cases hout
    | ok o =>
      cases hrest : efilterMap f as with
      | error e => rw [efilterMap, hfa, hrest] at hout; cases hout
      | ok ys =>
        rw [efilterMap, hfa, hrest] at hout
        simp at hout
        cases o with
        | some z =>
          rw [← hout] at hy
          rcases List.mem_cons.mp hy with h | h
          · subst h; exact ⟨a, List.mem_cons_self _ _, hfa⟩
          · rcases ih ys hrest y h with ⟨x, hx1, hx2⟩
            exact ⟨x, List.mem_cons_of_mem _ hx1, hx2⟩
        | none =>
          rw [← hout] at hy
          rcases ih ys hrest y hy with ⟨x, hx1, hx2⟩
          exact ⟨x, List.mem_cons_of_mem _ hx1, hx2⟩

theorem efilterMap_error_of_mem {α β : Type} (f : α → Except String (Option β)) :
    ∀ (l : List α) (x : α) (e : String), x ∈ l → f x = Except.error e →
      ∃ e', efilterMap f l = Except.error e' := by
  intro l
  induction l with
  | nil => intro x e hx; cases hx
  | cons a as ih =>
    intro x e hx hfx
    rcases List.mem_cons.mp hx with h | h
    · subst h
      exact ⟨e, by rw [efilterMap, hfx]; rfl⟩
    · cases hfa : f a with
      | error e' => exact ⟨e', by rw [efilterMap, hfa]; rfl⟩
      | ok o =>
        rcases ih x e h hfx with ⟨e', he'⟩
        refine ⟨e', ?_⟩
        rw [efilterMap, hfa, he']
        rfl

end PG

namespace PG

/-- The DOM-root node of the concrete scenario graphs. -/
def nodeRoot : Node := { node_timestamp := 0, node_type := NodeType.DomRoot (some ("http://a.test/")) }

/-- An HTML element with tag name "script". -/
def nodeScriptElem : Node := { node_timestamp := 1, node_type := NodeType.HtmlElement ("script") 1 }

/-- A script node. -/
def nodeScript : Node := { node_timestamp := 2, node_type := NodeType.Script ("") }

/-- Concrete scenario graph from the spec: one DOM root
(url "http://a.test/"), one HTML "script" element with no resource
neighbor but one outgoing edge to a script node. -/
def gScen : PageGraph :=
  { edges := [(10, { edge_timestamp := none, edge_type := EdgeType.Structure }),
              (11, { edge_timestamp := some 5, edge_type := EdgeType.OtherAction ("Execute") })],
    nodes := [(1, nodeRoot), (2, nodeScriptElem), (3, nodeScript)],
    adj := [(1, 2, 10), (2, 3, 11)] }

/-- Graph for the modification-history scenario: HTML element 2 with one
structural incoming edge and three non-structural incoming edges
timestamped 30, 10, 20. -/
def gMods : PageGraph :=
  { edges := [(20, { edge_timestamp := none, edge_type := EdgeType.Structure }),
              (21, { edge_timestamp := some 30, edge_type := EdgeType.OtherAction ("SetAttribute") }),
              (22, { edge_timestamp := some 10, edge_type := EdgeType.OtherAction ("CreateNode") }),
              (23, { edge_timestamp := some 20, edge_type := EdgeType.OtherAction ("SetAttribute") })],
    nodes := [(1, nodeRoot), (2, nodeScriptElem),
              (6, { node_timestamp := 0, node_type := NodeType.Parser }),
              (7, nodeScript),
              (8, { node_timestamp := 3, node_type := NodeType.Script ("s2") })],
    adj := [(1, 2, 20), (6, 2, 21), (7, 2, 22), (8, 2, 23)] }

/-- A resource node for the second-hop script-attribution scenario. -/
def nodeResource : Node :=
  { node_timestamp := 3, node_type := NodeType.Resource ("http://b.test/x.js") }

/-- Graph for `resources_from_script` on a "script" HTML element: the
element (2) has no direct resource neighbor, one attached script node (3),
and that script node fetched resource 4. -/
def gRes : PageGraph :=
  { edges := [(10, { edge_timestamp := none, edge_type := EdgeType.Structure }),
              (11, { edge_timestamp := some 1, edge_type := EdgeType.OtherAction ("Execute") }),
              (12, { edge_timestamp := some 2, edge_type := EdgeType.RequestStart ("script") })],
    nodes := [(1, nodeRoot), (2, nodeScriptElem), (3, nodeScript), (4, nodeResource)],
    adj := [(1, 2, 10), (2, 3, 11), (3, 4, 12)] }

/-- Graph for the request-type-consistency scenario: resource 2 has two
incoming RequestStart edges, both of type "script". -/
def gReq : PageGraph :=
  { edges := [(10, { edge_timestamp := some 1, edge_type := EdgeType.RequestStart ("script") }),
              (11, { edge_timestamp := some 2, edge_type := EdgeType.RequestStart ("script") })],
    nodes := [(1, nodeRoot), (2, nodeResource), (3, nodeScript),
              (4, { node_timestamp := 3, node_type := NodeType.Script ("s2") })],
    adj := [(3, 2, 10), (4, 2, 11)] }

/-- Same as `gReq` with one RequestStart edge changed to type "image". -/
def gReqBad : PageGraph :=
  { edges := [(10, { edge_timestamp := some 1, edge_type := EdgeType.RequestStart ("script") }),
              (11, { edge_timestamp := some 2, edge_type := EdgeType.RequestStart ("image") })],
    nodes := [(1, nodeRoot), (2, nodeResource), (3, nodeScript),
              (4, { node_timestamp := 3, node_type := NodeType.Script ("s2") })],
    adj := [(3, 2, 10), (4, 2, 11)] }

/-- Graph with one text node, for the unsupported-kind witness. -/
def gText : PageGraph :=
  { edges := [],
    nodes := [(1, nodeRoot), (5, { node_timestamp := 4, node_type := NodeType.TextNode ("hi") })],
    adj := [] }

/-- External engine mirroring the real crates on the strings these graphs
use: `url::Url::parse` succeeds on the absolute URLs "http://a.test/" and
"http://b.test/x.js" and fails elsewhere; the `addr` crate roots "a.test"
and "b.test" at themselves; the adblock pattern "||b.test^" parses (to the
only rule, which matches everything here) and all other patterns are
rejected as invalid. -/
def extTest : Extern Unit :=
  { parseFilter := fun p => if p == "||b.test^" then some () else none,
    matchesRule := fun _ _ => true,
    parseUrl := fun s =>
      if s == "http://a.test/" then some { scheme := ("http"), host := some ("a.test") }
      else if s == "http://b.test/x.js" then some { scheme := ("http"), host := some ("b.test") }
      else none,
    domainRoot := fun h =>
      if h == "a.test" then some ("a.test")
      else if h == "b.test" then some ("b.test")
      else none }

/-- Graph whose unique indegree-0 DOM root carries the URL "x", which is
not an absolute URL, so `url::Url::parse` rejects it (as `extTest` does). -/
def gBadUrl : PageGraph :=
  { edges := [],
    nodes := [(1, { node_timestamp := 0, node_type := NodeType.DomRoot (some ("x")) })],
    adj := [] }

end PG

namespace PG

theorem emap_ok_sound {α β : Type} (f : α → Except String β) :
    ∀ (l : List α) (out : List β), emap f l = Except.ok out →
      ∀ y ∈ out, ∃ x ∈ l, f x = Except.ok y := by
  intro l
  induction l with
  | nil =>
    intro out hout y hy
    cases hout
    cases hy
  | cons a as ih =>
    intro out hout y hy
    cases hfa : f a with
    | error e => rw [emap, hfa] at hout; simp at hout
    | ok z =>
      cases hrest : emap f as with
      | error e => rw [emap, hfa, hrest] at hout; simp at hout
      | ok ys =>
        rw [emap, hfa, hrest] at hout
        simp at hout
        rw [← hout] at hy
        rcases List.mem_cons.mp hy with h | h
        · subst h; exact ⟨a, List.mem_cons_self _ _, hfa⟩
        · rcases ih ys hrest y h with ⟨x, hx1, hx2⟩
          exact ⟨x, List.mem_cons_of_mem _ hx1, hx2⟩

theorem emap_over_map {α β γ : Type} (f : β → Except String γ) (proj : α → β) (gp : α → γ) :
    ∀ l : List α, (∀ x ∈ l, f (proj x) = Except.ok (gp x)) →
      emap f (l.map proj) = Except.ok (l.map gp) := by
  intro l
  induction l with
  | nil => intro _; rfl
  | cons x xs ih =>
    intro h
    have hx := h x (List.mem_cons_self x xs)
    have hxs := ih (fun y hy => h y (List.mem_cons_of_mem x hy))
    simp only [List.map_cons, emap, hx, hxs, ebind_ok]
    rfl

theorem map_congr_mem {α β : Type} (f fg : α → β) :
    ∀ l : List α, (∀ x ∈ l, f x = fg x) → l.map f = l.map fg := by
  intro l
  induction l with
  | nil => intro _; rfl
  | cons x xs ih =>
    intro h
    simp only [List.map_cons, h x (List.mem_cons_self x xs),
      ih (fun y hy => h y (List.mem_cons_of_mem x hy))]

theorem filterMap_eq_filter_map {α β : Type} (F : α → Option β) (q : α → Bool) (gp : α → β) :
    ∀ l : List α, (∀ x ∈ l, F x = if q x then some (gp x) else none) →
      l.filterMap F = (l.filter q).map gp := by
  intro l
  induction l with
  | nil => intro _; rfl
  | cons x xs ih =>
    intro h
    have hx := h x (List.mem_cons_self x xs)
    have hxs := ih (fun y hy => h y (List.mem_cons_of_mem x hy))
    rw [List.filterMap_cons, List.filter_cons, hx]
    cases hq : q x <;> simp [hq, hxs]

/-- Under the DiGraphMap invariant (at most one edge per ordered pair of
endpoints, i.e. the pair projection of the adjacency list has no
duplicates), `edge_weight` recovers exactly the edge id stored on any
adjacency triple. -/
theorem edgeWeight_of_mem (g : PageGraph)
    (hadj : (g.adj.map (fun t => (t.1, t.2.1))).Nodup)
    (t : NodeId × NodeId × EdgeId) (ht : t ∈ g.adj) :
    g.edgeWeight t.1 t.2.1 = some t.2.2 := by
  unfold PageGraph.edgeWeight
  cases hf : g.adj.find? (fun u => u.1 == t.1 && u.2.1 == t.2.1) with
  | none =>
    have := List.find?_eq_none.mp hf t ht
    simp at this
  | some u =>
    have hu_mem := List.mem_of_find?_eq_some hf
    have hu_pred := List.find?_some hf
    simp only [Bool.and_eq_true, beq_iff_eq] at hu_pred
    have hut : u = t :=
      List.inj_on_of_nodup_map hadj hu_mem ht (by simp [hu_pred.1, hu_pred.2])
    rw [hut]
    rfl

end PG

namespace PG

/-- C10: for every graph and every node reference, the public operation
`cause_of` returns `None` — it never produces a cause for any node kind. -/
theorem cause_of_always_none (g : PageGraph) (node_ref : NodeId × Node) :
    g.cause_of node_ref = none := by
  unfold PageGraph.cause_of
  cases node_ref.2.node_type <;> rfl

/-- C9: for every node whose kind is not resource, script, or a "script"
HTML element, `direct_downstream_effects_of` signals an explicit failure
(the `unimplemented!()` arms), never a silent empty effect list. -/
theorem direct_effects_unsupported_kind_errors (g : PageGraph) (n : NodeId) (node : Node)
    (hnode : g.getNode n = some node)
    (hup : supports_causal_tracing node.node_type = false) :
    ∃ e, g.direct_downstream_effects_of n = Except.error e := by
  unfold PageGraph.direct_downstream_effects_of
  rw [hnode]
  simp only [expectSome, ebind_ok]
  cases hnt : node.node_type <;> simp_all [supports_causal_tracing]

/-- C9 witness: the text node of `gText` is rejected. -/
theorem direct_effects_unsupported_kind_errors_witness :
    ∃ e, gText.direct_downstream_effects_of 5 = Except.error e :=
  direct_effects_unsupported_kind_errors gText 5
    { node_timestamp := 4, node_type := NodeType.TextNode ("hi") } rfl rfl

end PG

namespace PG

theorem gScen_direct_effects_elem :
    gScen.direct_downstream_effects_of 2 = Except.ok [(3, nodeScript)] := by rfl

theorem scenario_loop_diverges_aux :
    ∀ (fuel : Nat) (c : List NodeId), (3 : NodeId) ∉ c →
      gScen.allDownstreamLoop fuel [2] c = none := by
  intro fuel
  induction fuel with
  | zero => intro c _; rfl
  | succ m ih =>
    intro c hc
    have h3 : (3 : NodeId) ∉ c ++ [2] := by
      intro hmem
      rcases List.mem_append.mp hmem with h | h
      · exact hc h
      · simp at h
    rw [PageGraph.allDownstreamLoop]
    rw [gScen_direct_effects_elem]
    simp only [List.foldl]
    rw [if_neg h3]
    exact ih (c ++ [2]) h3

/-- C1: the claimed superset property of `all_downstream_effects_of` fails
on the scenario graph: `direct_effects` of the script element is the
non-empty list `[(3, script)]`, yet the traversal never returns for any
amount of fuel, because the loop re-pushes the node it just processed
(`nodes_to_check.push(node_id)`) instead of the newly discovered effect
(`inner_node_id`), so node 3 is never collected and the worklist never
drains. -/
theorem all_downstream_effects_scenario_bug :
    gScen.direct_downstream_effects_of 2 = Except.ok [(3, nodeScript)] ∧
    ∀ fuel : Nat, gScen.all_downstream_effects_of fuel 2 = none := by
  refine ⟨gScen_direct_effects_elem, ?_⟩
  intro fuel
  unfold PageGraph.all_downstream_effects_of
  rw [scenario_loop_diverges_aux fuel [] (by simp)]

/-- C2: the claimed termination of `all_downstream_effects_of` fails on the
scenario graph even though every reachable node (the "script" HTML element
and the script node) has a supported kind for causal tracing: the worklist
loop runs forever, returning `none` for every finite fuel. -/
theorem all_downstream_loop_nonterminating :
    supports_causal_tracing nodeScriptElem.node_type = true ∧
    supports_causal_tracing nodeScript.node_type = true ∧
    ∀ fuel : Nat, gScen.allDownstreamLoop fuel [2] [] = none := by
  refine ⟨rfl, rfl, ?_⟩
  intro fuel
  exact scenario_loop_diverges_aux fuel [] (by simp)

end PG

namespace PG

theorem efilterMap_resource_neighbors (g : PageGraph) (n : NodeId)
    (hnb : ∀ nb ∈ g.neighborsOut n, (g.getNode nb).isSome) :
    efilterMap (fun nb => do
        let nd ← expectSome (g.getNode nb) ("neighbor not found")
        pure (match nd.node_type with
          | NodeType.Resource _ => some (nb, nd)
          | _ => none)) (g.neighborsOut n) =
      Except.ok (g.outgoing_of_kind n isResourceB) := by
  unfold PageGraph.outgoing_of_kind
  apply efilterMap_eq_ok
  intro nb hmem
  rcases Option.isSome_iff_exists.mp (hnb nb hmem) with ⟨nd, hnd⟩
  rw [hnd]
  simp only [expectSome, ebind_ok]
  cases nd.node_type <;> rfl

theorem efilterMap_script_neighbors (g : PageGraph) (n : NodeId)
    (hnb : ∀ nb ∈ g.neighborsOut n, (g.getNode nb).isSome) :
    efilterMap (fun nb => do
        let nd ← expectSome (g.getNode nb) ("neighbor not found")
        pure (match nd.node_type with
          | NodeType.Script _ => some (nb, nd)
          | _ => none)) (g.neighborsOut n) =
      Except.ok (g.outgoing_of_kind n isScriptB) := by
  unfold PageGraph.outgoing_of_kind
  apply efilterMap_eq_ok
  intro nb hmem
  rcases Option.isSome_iff_exists.mp (hnb nb hmem) with ⟨nd, hnd⟩
  rw [hnd]
  simp only [expectSome, ebind_ok]
  cases nd.node_type <;> rfl

/-- C8: for a node naming an HTML element with tag name "script",
`direct_downstream_effects_of` returns its outgoing resource-kind
neighbors when at least one exists, and otherwise its outgoing script-kind
neighbors. -/
theorem direct_effects_script_element_spec (g : PageGraph) (n : NodeId) (node : Node)
    (dom_id : Nat)
    (hnode : g.getNode n = some node)
    (hnt : node.node_type = NodeType.HtmlElement ("script") dom_id)
    (hnb : ∀ nb ∈ g.neighborsOut n, (g.getNode nb).isSome) :
    g.direct_downstream_effects_of n =
      Except.ok (if (g.outgoing_of_kind n isResourceB).isEmpty
                 then g.outgoing_of_kind n isScriptB
                 else g.outgoing_of_kind n isResourceB) := by
  obtain ⟨ts, nt⟩ := node
  dsimp only at hnt
  subst hnt
  unfold PageGraph.direct_downstream_effects_of
  rw [hnode]
  simp only [expectSome_some, ebind_ok]
  rw [if_pos (show (("script" == "script") = true) from rfl)]
  rw [efilterMap_resource_neighbors g n hnb]
  simp only [ebind_ok]
  cases hre : (g.outgoing_of_kind n isResourceB).isEmpty with
  | true =>
    rw [if_pos rfl, if_pos rfl]
    exact efilterMap_script_neighbors g n hnb
  | false =>
    rw [if_neg (by simp), if_neg (by simp)]
    rfl

/-- C8 witness: in the scenario graph the "script" element (node 2) has no
resource neighbor, so the dispatch falls through to its script neighbors. -/
theorem direct_effects_script_element_spec_witness :
    gScen.direct_downstream_effects_of 2 =
      Except.ok (if (gScen.outgoing_of_kind 2 isResourceB).isEmpty
                 then gScen.outgoing_of_kind 2 isScriptB
                 else gScen.outgoing_of_kind 2 isResourceB) :=
  direct_effects_script_element_spec gScen 2 nodeScriptElem 1 rfl rfl (by decide)

end PG

namespace PG

theorem dom_root_step_cases (g : PageGraph) (p : NodeId × Node) :
    (dom_root_step g p = Except.ok none ∧
      (isDomRootB p.2.node_type && ((g.edgesIn p.1).length == 0)) = false) ∨
    (∃ u, dom_root_step g p = Except.ok (some u) ∧
      (isDomRootB p.2.node_type && ((g.edgesIn p.1).length == 0)) = true ∧
      dom_root_url p.2.node_type = some u) ∨
    (∃ e, dom_root_step g p = Except.error e ∧
      (isDomRootB p.2.node_type && ((g.edgesIn p.1).length == 0)) = true ∧
      dom_root_url p.2.node_type = none) := by
  unfold dom_root_step
  cases hnt : p.2.node_type <;> dsimp only
  case DomRoot url =>
    by_cases hlen : (((g.edgesIn p.1).length == 0) = true)
    · rw [if_pos hlen]
      cases url with
      | some u => exact Or.inr (Or.inl ⟨u, rfl, by simp [isDomRootB, hlen], rfl⟩)
      | none => exact Or.inr (Or.inr ⟨_, rfl, by simp [isDomRootB, hlen], rfl⟩)
    · rw [if_neg hlen]
      refine Or.inl ⟨rfl, ?_⟩
      simp only [isDomRootB, Bool.true_and]
      simpa using hlen
  all_goals exact Or.inl ⟨rfl, by simp [isDomRootB]⟩

theorem root_scan_aux (g : PageGraph) :
    ∀ (l : List (NodeId × Node)) (us : List String),
      efilterMap (dom_root_step g) l = Except.ok us →
      (l.filter (fun p => isDomRootB p.2.node_type && ((g.edgesIn p.1).length == 0))).map
          (fun p => dom_root_url p.2.node_type) = us.map some := by
  intro l
  induction l with
  | nil => intro us h; cases h; rfl
  | cons a as ih =>
    intro us h
    rw [efilterMap] at h
    rcases dom_root_step_cases g a with ⟨hstep, hcond⟩ | ⟨u, hstep, hcond, hurl⟩ |
      ⟨e, hstep, hcond, hurl⟩
    · rw [hstep] at h
      simp only [ebind_ok] at h
      cases hrest : efilterMap (dom_root_step g) as with
      | error e2 => rw [hrest] at h; simp at h
      | ok ys =>
        rw [hrest] at h
        simp only [ebind_ok] at h
        have hus : ys = us := by simpa using h
        simp only [List.filter_cons, hcond, Bool.false_eq_true, if_false]
        rw [← hus]
        exact ih ys hrest
    · rw [hstep] at h
      simp only [ebind_ok] at h
      cases hrest : efilterMap (dom_root_step g) as with
      | error e2 => rw [hrest] at h; simp at h
      | ok ys =>
        rw [hrest] at h
        simp only [ebind_ok] at h
        have hus : u :: ys = us := by simpa using h
        simp only [List.filter_cons, hcond, if_true, List.map_cons]
        rw [← hus, List.map_cons, hurl]
        exact congrArg (some u :: ·) (ih ys hrest)
    · rw [hstep] at h
      simp at h

/-- C5: `root_url` is deterministic on a fixed graph; on success it returns
the URL of the unique indegree-0 DOM-root node (the candidate list is a
singleton whose URL payload is the returned string); and it fails whenever
the number of indegree-0 DOM-root nodes is not one. -/
theorem root_url_stable_and_unique (g : PageGraph) :
    (g.root_url = g.root_url) ∧
    (∀ s, g.root_url = Except.ok s →
      (g.dom_roots_without_incoming).map (fun p => dom_root_url p.2.node_type) = [some s]) ∧
    ((g.dom_roots_without_incoming).length ≠ 1 → ∃ e, g.root_url = Except.error e) := by
  refine ⟨rfl, ?_, ?_⟩
  · intro s hok
    unfold PageGraph.root_url at hok
    cases hfm : efilterMap (dom_root_step g) g.nodes with
    | error e => rw [hfm] at hok; simp at hok
    | ok us =>
      rw [hfm] at hok
      simp only [ebind_ok] at hok
      have haux := root_scan_aux g g.nodes us hfm
      unfold PageGraph.dom_roots_without_incoming
      cases us with
      | nil => simp at hok
      | cons u tl =>
        cases tl with
        | nil =>
          have hu : u = s := by simpa using hok
          rw [haux, hu]
          rfl
        | cons v tl2 => simp at hok
  · intro hlen
    unfold PageGraph.root_url
    cases hfm : efilterMap (dom_root_step g) g.nodes with
    | error e => exact ⟨e, rfl⟩
    | ok us =>
      have haux := root_scan_aux g g.nodes us hfm
      have hlen2 : (g.dom_roots_without_incoming).length = us.length := by
        have hc := congrArg List.length haux
        simpa [PageGraph.dom_roots_without_incoming] using hc
      simp only [ebind_ok]
      cases us with
      | nil => exact ⟨_, rfl⟩
      | cons u tl =>
        cases tl with
        | nil => exact absurd (by simpa using hlen2) hlen
        | cons v tl2 => exact ⟨_, rfl⟩

/-- C5 witness: the scenario graph has exactly one indegree-0 DOM root and
`root_url` returns its URL. -/
theorem root_url_stable_and_unique_witness :
    (gScen.dom_roots_without_incoming).map (fun p => dom_root_url p.2.node_type) =
      [some ("http://a.test/")] :=
  (root_url_stable_and_unique gScen).2.1 ("http://a.test/") rfl

end PG

namespace PG

/-- C6 counterexample: `gBadUrl` satisfies the root-URL precondition
(exactly one indegree-0 DOM root with a populated URL, and `root_url`
succeeds), and the pattern "not-a-filter" is syntactically invalid
(`parseFilter` rejects it, just as the adblock crate rejects it), yet
`resources_matching_filter` fails fatally instead of returning `[]`: the
source-URL pre-processing runs before the pattern parse, and the root URL
"x" is not a parseable absolute URL. -/
theorem resources_matching_filter_invalid_pattern_cex :
    gBadUrl.root_url = Except.ok ("x") ∧
    (gBadUrl.dom_roots_without_incoming).length = 1 ∧
    extTest.parseFilter ("not-a-filter") = none ∧
    PageGraph.resources_matching_filter extTest gBadUrl ("not-a-filter") =
      Except.error ("Could not parse source URL") :=
  ⟨rfl, rfl, rfl, rfl⟩

/-- C6 (amended): for every graph and external engine on which the
source-URL pre-processing succeeds (the root URL is found, parses, has a
host, and that host has a registrable domain), every syntactically invalid
filter pattern makes `resources_matching_filter` return the empty list
rather than failing. -/
theorem resources_matching_filter_invalid_pattern_ok {Rule : Type} (ext : Extern Rule)
    (g : PageGraph) (pattern u : String) (pu : ParsedUrl) (sh sd : String)
    (hroot : g.root_url = Except.ok u)
    (hpu : ext.parseUrl u = some pu)
    (hph : pu.host = some sh)
    (hsd : get_domain ext sh = Except.ok sd)
    (hpat : ext.parseFilter pattern = none) :
    PageGraph.resources_matching_filter ext g pattern = Except.ok [] := by
  unfold PageGraph.resources_matching_filter
  rw [hroot]
  simp only [ebind_ok, hpu, expectSome_some]
  rw [hph]
  simp only [expectSome_some, ebind_ok]
  rw [hsd]
  simp only [ebind_ok, hpat]

/-- C6 witness: the scenario graph's root URL pre-processing succeeds under
`extTest`, so the invalid pattern "not-a-filter" yields the empty list. -/
theorem resources_matching_filter_invalid_pattern_ok_witness :
    PageGraph.resources_matching_filter extTest gScen ("not-a-filter") = Except.ok [] :=
  resources_matching_filter_invalid_pattern_ok extTest gScen ("not-a-filter")
    ("http://a.test/") { scheme := ("http"), host := some ("a.test") } ("a.test") ("a.test")
    rfl rfl rfl rfl rfl

end PG

namespace PG

theorem request_types_stage (g : PageGraph) (id : NodeId)
    (hedges : ∀ t ∈ g.edgesIn id, (g.getEdge t.2.2).isSome) :
    efilterMap (fun t => do
        let e ← expectSome (g.getEdge t.2.2) ("edge not found")
        pure (match e.edge_type with
          | EdgeType.RequestStart request_type => some request_type
          | _ => none)) (g.edgesIn id) =
      Except.ok (g.request_types_of id) := by
  unfold PageGraph.request_types_of
  apply efilterMap_eq_ok
  intro t hmem
  rcases Option.isSome_iff_exists.mp (hedges t hmem) with ⟨e, he⟩
  rw [he]
  rfl

theorem resource_check_eval {Rule : Type} (ext : Extern Rule) (g : PageGraph) (rule : Rule)
    (sh sd : String) (id : NodeId) (ts : Int) (url : String) (ru : ParsedUrl) (rh rd : String)
    (hru : ext.parseUrl url = some ru) (hrh : ru.host = some rh)
    (hrd : get_domain ext rh = Except.ok rd)
    (hedges : ∀ t ∈ g.edgesIn id, (g.getEdge t.2.2).isSome) :
    resource_check ext g rule sh sd
        (id, { node_timestamp := ts, node_type := NodeType.Resource url }) =
      (match (g.request_types_of id).dedup with
       | [] => Except.error ("Resource did not have a corresponding RequestStart edge")
       | [request_type] => Except.ok (if ext.matchesRule rule
            { request_type := request_type, url := url, scheme := ru.scheme, host := rh,
              domain := rd, source_hostname := sh, source_domain := sd }
          then some (id, { node_timestamp := ts, node_type := NodeType.Resource url })
          else none)
       | _ => Except.error ("Resource was requested with multiple different request types")) := by
  unfold resource_check
  dsimp only
  rw [hru]
  dsimp only
  rw [hrh]
  simp only [expectSome_some, ebind_ok]
  rw [hrd]
  simp only [ebind_ok]
  rw [request_types_stage g id hedges]
  simp only [ebind_ok]

/-- C7: during `resources_matching_filter` (with the rule parsed and the
source-URL pre-processing successful), a resource node with a parseable
URL makes the whole query fail when its incoming RequestStart edges carry
zero distinct request types, likewise when they carry more than one
distinct type, and when they carry exactly one distinct type (possibly on
several edges) the per-node check succeeds and matches with exactly that
type. -/
theorem resources_matching_filter_request_types {Rule : Type} (ext : Extern Rule)
    (g : PageGraph) (pattern : String) (u : String) (pu : ParsedUrl) (sh sd : String)
    (rule : Rule) (id : NodeId) (ts : Int) (url : String) (ru : ParsedUrl) (rh rd : String)
    (hroot : g.root_url = Except.ok u)
    (hpu : ext.parseUrl u = some pu) (hph : pu.host = some sh)
    (hsd : get_domain ext sh = Except.ok sd)
    (hrule : ext.parseFilter pattern = some rule)
    (hmem : (id, { node_timestamp := ts, node_type := NodeType.Resource url }) ∈ g.nodes)
    (hru : ext.parseUrl url = some ru) (hrh : ru.host = some rh)
    (hrd : get_domain ext rh = Except.ok rd)
    (hedges : ∀ t ∈ g.edgesIn id, (g.getEdge t.2.2).isSome) :
    ((g.request_types_of id).dedup = [] →
      ∃ e, PageGraph.resources_matching_filter ext g pattern = Except.error e) ∧
    (1 < (g.request_types_of id).dedup.length →
      ∃ e, PageGraph.resources_matching_filter ext g pattern = Except.error e) ∧
    (∀ rt, (g.request_types_of id).dedup = [rt] →
      resource_check ext g rule sh sd
          (id, { node_timestamp := ts, node_type := NodeType.Resource url }) =
        Except.ok (if ext.matchesRule rule
            { request_type := rt, url := url, scheme := ru.scheme, host := rh, domain := rd,
              source_hostname := sh, source_domain := sd }
          then some (id, { node_timestamp := ts, node_type := NodeType.Resource url })
          else none)) := by
  have hcheck := resource_check_eval ext g rule sh sd id ts url ru rh rd hru hrh hrd hedges
  have hquery : ∀ e0 : String,
      resource_check ext g rule sh sd
          (id, { node_timestamp := ts, node_type := NodeType.Resource url }) =
        Except.error e0 →
      ∃ e, PageGraph.resources_matching_filter ext g pattern = Except.error e := by
    intro e0 herr
    unfold PageGraph.resources_matching_filter
    rw [hroot]
    simp only [ebind_ok, hpu, expectSome_some]
    rw [hph]
    simp only [expectSome_some, ebind_ok]
    rw [hsd]
    simp only [ebind_ok, hrule]
    exact efilterMap_error_of_mem _ g.nodes _ e0 hmem herr
  refine ⟨?_, ?_, ?_⟩
  · intro hd
    exact hquery _ (by rw [hcheck, hd])
  · intro hlen
    obtain ⟨a, b, tl, hd⟩ : ∃ a b tl, (g.request_types_of id).dedup = a :: b :: tl := by
      cases hdl : (g.request_types_of id).dedup with
      | nil => rw [hdl] at hlen; simp at hlen
      | cons a tl1 =>
        cases tl1 with
        | nil => rw [hdl] at hlen; simp at hlen
        | cons b tl2 => exact ⟨a, b, tl2, rfl⟩
    exact hquery _ (by rw [hcheck, hd])
  · intro rt hd
    rw [hcheck, hd]

/-- C7 witness: in `gReq` the resource has two RequestStart edges, both of
type "script", and the per-node check succeeds using that type; in
`gReqBad` one edge is changed to type "image" and the whole query fails. -/
theorem resources_matching_filter_request_types_witness :
    (resource_check extTest gReq () ("a.test") ("a.test")
        (2, { node_timestamp := 3, node_type := NodeType.Resource ("http://b.test/x.js") }) =
      Except.ok (if extTest.matchesRule ()
          { request_type := ("script"), url := ("http://b.test/x.js"), scheme := ("http"),
            host := ("b.test"), domain := ("b.test"), source_hostname := ("a.test"),
            source_domain := ("a.test") }
        then some (2, { node_timestamp := 3,
                        node_type := NodeType.Resource ("http://b.test/x.js") })
        else none)) ∧
    (∃ e, PageGraph.resources_matching_filter extTest gReqBad ("||b.test^") =
      Except.error e) :=
  ⟨(resources_matching_filter_request_types extTest gReq ("||b.test^") ("http://a.test/")
      { scheme := ("http"), host := some ("a.test") } ("a.test") ("a.test") () 2 3
      ("http://b.test/x.js") { scheme := ("http"), host := some ("b.test") } ("b.test")
      ("b.test") rfl rfl rfl rfl rfl (by decide) rfl rfl rfl (by decide)).2.2 ("script") rfl,
   (resources_matching_filter_request_types extTest gReqBad ("||b.test^") ("http://a.test/")
      { scheme := ("http"), host := some ("a.test") } ("a.test") ("a.test") () 2 3
      ("http://b.test/x.js") { scheme := ("http"), host := some ("b.test") } ("b.test")
      ("b.test") rfl rfl rfl rfl rfl (by decide) rfl rfl rfl (by decide)).2.1 (by decide)⟩

end PG

namespace PG

theorem ebind_ok_inv {α β : Type} (m : Except String α) (k : α → Except String β) (b : β)
    (h : (m >>= k) = Except.ok b) : ∃ a, m = Except.ok a ∧ k a = Except.ok b := by
  cases m with
  | error e => simp at h
  | ok a => exact ⟨a, rfl, by simpa using h⟩

theorem resource_filter_true (g : PageGraph) (nid : NodeId) (n : Node)
    (hg : g.getNode nid = some n)
    (h : (do
        let nd ← expectSome (g.getNode nid) ("neighbor not found")
        pure (match nd.node_type with
          | NodeType.Resource _ => true
          | _ => false)) = Except.ok true) :
    isResourceB n.node_type = true := by
  rw [hg] at h
  simp only [expectSome_some, ebind_ok, epure_ok, Except.ok.injEq] at h
  cases hnt : n.node_type <;> rw [hnt] at h <;> simp_all [isResourceB]

theorem resource_pair_of_mf (g : PageGraph) (nid : NodeId) (p : NodeId × Node)
    (h : (do
        let n ← expectSome (g.getNode nid) ("resource not found")
        pure (nid, n)) = Except.ok p) :
    g.getNode nid = some p.2 ∧ p.1 = nid := by
  cases hg : g.getNode nid with
  | none => rw [hg] at h; simp at h
  | some n =>
    rw [hg] at h
    simp only [expectSome_some, ebind_ok, epure_ok, Except.ok.injEq] at h
    rw [← h]
    exact ⟨rfl, rfl⟩

end PG

namespace PG

/-- C4: when `resources_from_script` succeeds, the queried node is a
script node or a "script" HTML element (any other kind fails fatally, see
the accompanying error analysis in the proof), every returned node is of
resource kind, and for a "script" HTML element the result includes every
resource-kind outgoing neighbor of each of the element's outgoing
script-node neighbors. -/
theorem resources_from_script_spec (g : PageGraph) (s : NodeId) (l : List (NodeId × Node))
    (hok : g.resources_from_script s = Except.ok l) :
    (∃ node, g.getNode s = some node ∧
      (isScriptB node.node_type = true ∨
       ∃ dom_id, node.node_type = NodeType.HtmlElement ("script") dom_id)) ∧
    (∀ p ∈ l, isResourceB p.2.node_type = true) ∧
    (∀ node, g.getNode s = some node →
      ∀ dom_id, node.node_type = NodeType.HtmlElement ("script") dom_id →
      ∀ sc ∈ g.neighborsOut s, ∀ nsc, g.getNode sc = some nsc →
        isScriptB nsc.node_type = true →
      ∀ r ∈ g.neighborsOut sc, ∀ nr, g.getNode r = some nr →
        isResourceB nr.node_type = true →
      (r, nr) ∈ l) := by
  unfold PageGraph.resources_from_script at hok
  cases hgn : g.getNode s with
  | none => rw [hgn] at hok; simp at hok
  | some node =>
  rw [hgn] at hok
  simp only [expectSome_some, ebind_ok] at hok
  rcases ebind_ok_inv _ _ _ hok with ⟨direct, hdir, hok2⟩
  rcases ebind_ok_inv _ _ _ hok2 with ⟨resulting, hmatch, hemap⟩
  cases hnt : node.node_type <;> rw [hnt] at hmatch
  case Script src =>
    have hres_eq : resulting = direct := by
      have := hmatch
      dsimp only at this
      simpa using this.symm
    subst hres_eq
    refine ⟨⟨node, rfl, Or.inl (by rw [hnt]; rfl)⟩, ?_, ?_⟩
    · intro p hp
      rcases emap_ok_sound _ _ _ hemap p hp with ⟨nid, hnid_mem, hmf⟩
      rcases resource_pair_of_mf g nid p hmf with ⟨hg2, hp1⟩
      rcases efilter_ok_sound _ _ _ hdir nid hnid_mem with ⟨_, hpf⟩
      exact resource_filter_true g nid p.2 hg2 hpf
    · intro node0 hg0 dom_id0 hnt0 sc _ nsc _ _ r _ nr _ _
      injection hg0 with hnode0
      rw [← hnode0] at hnt0
      rw [hnt] at hnt0
      simp at hnt0
  case HtmlElement tag dom =>
    dsimp only at hmatch
    by_cases htag : ((tag == "script") = true)
    · have htag' : tag = "script" := eq_of_beq htag
      subst htag'
      rw [if_pos (show (("script" == "script") = true) from rfl)] at hmatch
      rcases ebind_ok_inv _ _ _ hmatch with ⟨res_exec, hsf, hpure⟩
      have hres_eq : resulting = direct ++ res_exec.flatten := by simpa using hpure.symm
      subst hres_eq
      refine ⟨⟨node, rfl, Or.inr ⟨dom, hnt⟩⟩, ?_, ?_⟩
      · intro p hp
        rcases emap_ok_sound _ _ _ hemap p hp with ⟨nid, hnid_mem, hmf⟩
        rcases resource_pair_of_mf g nid p hmf with ⟨hg2, hp1⟩
        rcases List.mem_append.mp hnid_mem with hmem | hmem
        · rcases efilter_ok_sound _ _ _ hdir nid hmem with ⟨_, hpf⟩
          exact resource_filter_true g nid p.2 hg2 hpf
        · rcases List.mem_flatten.mp hmem with ⟨rs, hrs_mem, hnid_rs⟩
          rcases efilterMap_ok_sound _ _ _ hsf rs hrs_mem with ⟨sc, hsc_mem, hsf_sc⟩
          cases hg_sc : g.getNode sc with
          | none => rw [hg_sc] at hsf_sc; simp at hsf_sc
          | some nsc =>
            rw [hg_sc] at hsf_sc
            simp only [expectSome_some, ebind_ok] at hsf_sc
            obtain ⟨src2, hnsc⟩ : ∃ src2, nsc.node_type = NodeType.Script src2 := by
              cases hx : nsc.node_type <;> rw [hx] at hsf_sc <;> dsimp only at hsf_sc <;>
                first
                  | exact ⟨_, rfl⟩
                  | simp at hsf_sc
            rw [hnsc] at hsf_sc
            dsimp only at hsf_sc
            rcases ebind_ok_inv _ _ _ hsf_sc with ⟨rs2, hef, hpure2⟩
            have hrs2 : rs2 = rs := by simpa using hpure2
            subst hrs2
            rcases efilter_ok_sound _ _ _ hef nid hnid_rs with ⟨_, hpf2⟩
            exact resource_filter_true g nid p.2 hg2 hpf2
      · intro node0 _ dom_id0 _ sc hsc_mem nsc hg_sc hscript r hr_mem nr hg_r hnr
        rcases efilterMap_ok_forall _ _ _ hsf sc hsc_mem with ⟨o, ho, hmemo⟩
        obtain ⟨src2, hnsc⟩ : ∃ src2, nsc.node_type = NodeType.Script src2 := by
          cases hx : nsc.node_type <;> rw [hx] at hscript <;> simp [isScriptB] at hscript
          exact ⟨_, rfl⟩
        obtain ⟨url0, hnr_eq⟩ : ∃ url0, nr.node_type = NodeType.Resource url0 := by
          cases hx : nr.node_type <;> rw [hx] at hnr <;> simp [isResourceB] at hnr
          exact ⟨_, rfl⟩
        rw [hg_sc] at ho
        simp only [expectSome_some, ebind_ok] at ho
        rw [hnsc] at ho
        dsimp only at ho
        rcases ebind_ok_inv _ _ _ ho with ⟨rs, hef, hpureo⟩
        have ho_some : o = some rs := by simpa using hpureo.symm
        have hrs_mem : rs ∈ res_exec := hmemo rs ho_some
        have hr_rs : r ∈ rs := by
          refine efilter_ok_mem _ _ _ hef r hr_mem ?_
          dsimp only
          rw [hg_r]
          simp only [expectSome_some, ebind_ok]
          rw [hnr_eq]
          rfl
        have hr_flat : r ∈ res_exec.flatten := List.mem_flatten.mpr ⟨rs, hrs_mem, hr_rs⟩
        have hr_res : r ∈ direct ++ res_exec.flatten := List.mem_append_right _ hr_flat
        rcases emap_ok_forall _ _ _ hemap r hr_res with ⟨y, hy_mf, hy_l⟩
        rcases resource_pair_of_mf g r y hy_mf with ⟨hgy, hy1⟩
        have hy2 : y.2 = nr := by
          rw [hg_r] at hgy
          injection hgy with h
          exact h.symm
        have hy_eq : y = (r, nr) := by
          cases y with
          | mk y1 y2 =>
            dsimp only at hy1 hy2
            rw [hy1, hy2]
        rw [← hy_eq]
        exact hy_l
    · rw [if_neg htag] at hmatch
      simp at hmatch
  all_goals (dsimp only at hmatch; simp at hmatch)

end PG

namespace PG

/-- C4 witness: in `gRes`, the "script" element (node 2) has an attached
script node (3) which fetched resource 4; `resources_from_script`
succeeds and the second-hop resource is in the result. -/
theorem resources_from_script_spec_witness :
    (4, nodeResource) ∈ ([(4, nodeResource)] : List (NodeId × Node)) :=
  (resources_from_script_spec gRes 2 [(4, nodeResource)] rfl).2.2 nodeScriptElem rfl 1 rfl
    3 (by decide) nodeScript rfl rfl 4 (by decide) nodeResource rfl rfl

end PG

namespace PG

theorem incident_stage (g : PageGraph) (n : NodeId)
    (hadj : (g.adj.map (fun t => (t.1, t.2.1))).Nodup)
    (hedges : ∀ t ∈ g.edgesIn n, (g.getEdge t.2.2).isSome) :
    emap (fun node => do
        let edge_id ← expectSome (g.edgeWeight node n) ("edge weight not found")
        let edge ← expectSome (g.getEdge edge_id) ("edge not found")
        pure (edge_id, edge)) (g.neighborsIn n) =
      Except.ok ((g.edgesIn n).map (fun t =>
        (t.2.2, (g.getEdge t.2.2).getD { edge_timestamp := none,
                                         edge_type := EdgeType.Structure }))) := by
  unfold PageGraph.neighborsIn
  apply emap_over_map
  intro t ht
  have htadj : t ∈ g.adj := List.mem_of_mem_filter ht
  have htn : t.2.1 = n := by
    have := List.of_mem_filter ht
    simpa using this
  have hw : g.edgeWeight t.1 n = some t.2.2 := by
    have hwm := edgeWeight_of_mem g hadj t htadj
    rw [htn] at hwm
    exact hwm
  rcases Option.isSome_iff_exists.mp (hedges t ht) with ⟨e, he⟩
  rw [hw]
  simp only [expectSome_some, ebind_ok]
  rw [he]
  rfl

theorem sortModifications_spec (mods : List (EdgeId × Edge))
    (hts : ∀ p ∈ mods, p.2.edge_timestamp.isSome) :
    ∃ l, sortModifications mods = Except.ok l ∧ l.Perm mods ∧
      l.Pairwise (fun a b => tsKey a ≤ tsKey b) := by
  unfold sortModifications
  by_cases hlen : mods.length ≤ 1
  · rw [if_pos hlen]
    refine ⟨mods, rfl, List.Perm.refl mods, ?_⟩
    cases mods with
    | nil => exact List.Pairwise.nil
    | cons a tl =>
      cases tl with
      | nil => simp
      | cons b tl2 => simp at hlen
  · rw [if_neg hlen]
    have hkeys : emap (fun p => do
        let t ← expectSome p.2.edge_timestamp ("HTML element modification had no timestamp")
        pure (t, p)) mods = Except.ok (mods.map (fun p => (tsKey p, p))) := by
      apply emap_eq_ok
      intro p hp
      rcases Option.isSome_iff_exists.mp (hts p hp) with ⟨t, ht⟩
      rw [ht]
      simp only [expectSome_some, ebind_ok, epure_ok]
      unfold tsKey
      rw [ht]
      rfl
    rw [hkeys]
    simp only [ebind_ok, epure_ok]
    refine ⟨_, rfl, ?_, ?_⟩
    · have hperm := (List.perm_insertionSort tsLe (mods.map (fun p => (tsKey p, p)))).map
        Prod.snd
      have hmm : (mods.map (fun p => (tsKey p, p))).map Prod.snd = mods := by
        rw [List.map_map]
        exact List.map_id mods
      rw [hmm] at hperm
      exact hperm
    · have hsorted := List.sorted_insertionSort tsLe (mods.map (fun p => (tsKey p, p)))
      have hshape : ∀ x ∈ List.insertionSort tsLe (mods.map (fun p => (tsKey p, p))),
          x.1 = tsKey x.2 := by
        intro x hx
        have hx2 := (List.perm_insertionSort tsLe
          (mods.map (fun p => (tsKey p, p)))).mem_iff.mp hx
        rcases List.mem_map.mp hx2 with ⟨p, _, hpe⟩
        rw [← hpe]
      rw [List.pairwise_map]
      refine List.Pairwise.imp_of_mem ?_ hsorted
      intro a b ha hb hr
      rw [← hshape a ha, ← hshape b hb]
      exact hr

/-- C3: for an HTML-element node (under the adjacency-map invariant, with
all incident edges present in the edge store and all surviving
modification edges carrying timestamps), `all_html_element_modifications`
returns exactly the incoming non-structural edges, in non-decreasing
timestamp order; for a node of any other kind it fails fatally. -/
theorem modification_history_spec (g : PageGraph) (n : NodeId) (node : Node)
    (hnode : g.getNode n = some node) :
    (∀ tag dom_id, node.node_type = NodeType.HtmlElement tag dom_id →
      (g.adj.map (fun t => (t.1, t.2.1))).Nodup →
      (∀ t ∈ g.edgesIn n, (g.getEdge t.2.2).isSome) →
      (∀ p ∈ g.incoming_modification_edges n, p.2.edge_timestamp.isSome) →
      ∃ l, g.all_html_element_modifications n = Except.ok l ∧
        l.Perm (g.incoming_modification_edges n) ∧
        l.Pairwise (fun a b => tsKey a ≤ tsKey b)) ∧
    ((∀ tag dom_id, node.node_type ≠ NodeType.HtmlElement tag dom_id) →
      ∃ e, g.all_html_element_modifications n = Except.error e) := by
  constructor
  · intro tag dom_id hnt hadj hedges hts
    unfold PageGraph.all_html_element_modifications
    rw [hnode]
    simp only [expectSome_some, ebind_ok]
    rw [hnt]
    dsimp only
    rw [incident_stage g n hadj hedges]
    simp only [ebind_ok]
    have hfilter : ((g.edgesIn n).map (fun t => (t.2.2, (g.getEdge t.2.2).getD
          { edge_timestamp := none, edge_type := EdgeType.Structure }))).filter
          (fun p => match p.2.edge_type with
            | EdgeType.Structure => false
            | _ => true) = g.incoming_modification_edges n := by
      rw [List.filter_map]
      unfold PageGraph.incoming_modification_edges
      symm
      apply filterMap_eq_filter_map
      intro t ht
      rcases Option.isSome_iff_exists.mp (hedges t ht) with ⟨e, he⟩
      simp only [Function.comp, he, Option.getD_some]
      cases hET : e.edge_type <;> simp [isStructureB]
    rw [hfilter]
    exact sortModifications_spec _ hts
  · intro hne
    unfold PageGraph.all_html_element_modifications
    rw [hnode]
    simp only [expectSome_some, ebind_ok]
    cases hnt : node.node_type
    case HtmlElement tag dom_id => exact absurd hnt (hne tag dom_id)
    all_goals exact ⟨_, rfl⟩

/-- C3 witness: in `gMods` the element's three non-structural incoming
edges are timestamped 30, 10, 20 and come back sorted 10, 20, 30 (a
permutation of the incoming non-structural edges, pairwise non-decreasing
in timestamp). -/
theorem modification_history_spec_witness :
    ∃ l, gMods.all_html_element_modifications 2 = Except.ok l ∧
      l.Perm (gMods.incoming_modification_edges 2) ∧
      l.Pairwise (fun a b => tsKey a ≤ tsKey b) :=
  (modification_history_spec gMods 2 nodeScriptElem rfl).1 ("script") 1 rfl
    (by decide) (by decide) (by decide)

end PG
